import Mathlib

/-!
Shallow embedding of the BEACON iterative feature-selection pipeline
(`src/iterative_feature_selection_svr.py`).

The external statistical collaborators (the deterministic 80/20 split of
`train_test_split(..., random_state=42)`, the `LinearRegression` fit, the
metric computation, and the `RFE(SVR(kernel='linear'), ...)` support-mask
ranking) are modelled as deterministic function parameters bundled in
`Collab`; the specification treats them as out-of-scope external
collaborators, and every one of them is a pure function of its inputs in
the reference program because the split seed is fixed.

The `while True` loop of `optimize_model` has no a-priori bound in the
source, so it is embedded with explicit fuel (`loopRun`); exhausting
every fuel value models non-termination.  File-system side effects of the
persistence stage are reified as an ordered trace of `FsEvent`s.
-/

namespace Beacon

/-- A tabular dataset as loaded by `pd.read_csv`: named feature columns
(all but the last CSV column) plus the trailing target column, which
keeps its own column name.  Mirrors `X = data.iloc[:, :-1]`,
`y = data.iloc[:, -1]` (lines 33-34, 53-54).  Cell values are modelled as
rationals. -/
structure Dataset where
  features : List (String × List ℚ)
  targetName : String
  target : List ℚ
deriving DecidableEq

/-- The metric dictionary built by `train_model` (lines 43-48). -/
structure Metrics where
  r2 : ℚ
  rmse : ℚ
  mae : ℚ
  explVar : ℚ
deriving DecidableEq

/-- One entry of `models_metrics`: the tuple `(name, metrics, data)`
appended at lines 84 and 102.  The fitted model object returned by
`train_model` is not stored in the tuple. -/
structure Record where
  name : String
  metrics : Metrics
  data : Dataset
deriving DecidableEq

/-- Filter a list by a boolean support mask, keeping order: the semantics
of `X.columns[rfe.support_]` and `X.loc[:, selected_features]`
(lines 64-65). -/
def applyMask {α : Type} : List α → List Bool → List α
  | [], _ => []
  | _ :: _, [] => []
  | x :: xs, b :: bs => if b then x :: applyMask xs bs else applyMask xs bs

/-- The clamped feature-count request of `feature_selection`
(lines 57-59): `n_features = X.shape[1] - remove_count`, reset to 1 when
below 1.  Computed over ℤ to mirror Python integer subtraction. -/
def requestedFeatures (current remove : ℕ) : ℕ :=
  if (current : ℤ) - (remove : ℤ) < 1 then 1
  else ((current : ℤ) - (remove : ℤ)).toNat

/-- The external collaborators of the pipeline, all deterministic
functions: `split` is `train_test_split(X, y, test_size=0.2,
random_state=42)` (line 36, fixed seed), `fitLR` is
`LinearRegression().fit` (lines 38-39 and 119), `evalModel` computes the
hold-out metrics (lines 41-48), and `rank` is the
`RFE(SVR(kernel='linear'), step, n_features_to_select).fit` support mask
(lines 56-64), which may fail on degenerate data. -/
structure Collab (M : Type) where
  split : Dataset → Dataset × Dataset
  fitLR : Dataset → M
  evalModel : M → Dataset → Metrics
  rank : Dataset → ℕ → ℕ → Except Unit (List Bool)

/-- `train_model` (lines 32-50): deterministic 80/20 split, fit on the
training part, metrics computed on the held-out part. -/
def train_model {M : Type} (C : Collab M) (data : Dataset) : M × Metrics :=
  let p := C.split data
  let m := C.fitLR p.1
  (m, C.evalModel m p.2)

/-- `feature_selection` (lines 52-70): request `max(1, cols - remove)`
features from RFE, keep the supported columns in order, and rebuild the
dataset from the selected columns with the target column literally named
`target` (`final_data['target'] = y`, line 68).  Returns the new dataset,
the selected column names, and the requested count. -/
def feature_selection {M : Type} (C : Collab M) (data : Dataset)
    (step remove : ℕ) : Except Unit (Dataset × List String × ℕ) :=
  match C.rank data step (requestedFeatures data.features.length remove) with
  | .error e => .error e
  | .ok mask =>
      .ok (⟨applyMask data.features mask, "target", data.target⟩,
           (applyMask data.features mask).map Prod.fst,
           requestedFeatures data.features.length remove)

/-- The mutable state of the `while True` loop of `optimize_model`
(lines 86-104): the working dataset, `current_features`, `iteration`,
the accumulated `models_metrics` list, and an instrumentation trace of
(current feature count, requested feature count) pairs, one per ranking
call actually issued. -/
structure LoopState where
  data : Dataset
  currentFeatures : ℕ
  iteration : ℕ
  records : List Record
  rankCalls : List (ℕ × ℕ)
deriving DecidableEq

/-- One pass of the loop body after the stop check (lines 96-104):
run `feature_selection`, set `current_features` to the number of selected
columns, retrain, and append `("model_iteration_<i>", metrics, data)`. -/
def loopStep {M : Type} (C : Collab M) (step remove : ℕ)
    (st : LoopState) : Except Unit LoopState :=
  match feature_selection C st.data step remove with
  | .error e => .error e
  | .ok (newData, selNames, _) =>
      .ok { data := newData
            currentFeatures := selNames.length
            iteration := st.iteration + 1
            records := st.records ++
              [⟨"model_iteration_" ++ toString st.iteration,
                (train_model C newData).2, newData⟩]
            rankCalls := st.rankCalls ++
              [(st.data.features.length,
                requestedFeatures st.data.features.length remove)] }

/-- Outcome of running the loop with bounded fuel: completed (`done`),
aborted by a ranking failure, or fuel exhausted (the Python loop has no
bound of its own and can diverge). -/
inductive LoopOut where
  | done (st : LoopState)
  | rankFail (calls : List (ℕ × ℕ))
  | outOfFuel (calls : List (ℕ × ℕ))
deriving DecidableEq

/-- The ranking-call trace carried by a loop outcome. -/
def LoopOut.calls : LoopOut → List (ℕ × ℕ)
  | .done st => st.rankCalls
  | .rankFail c => c
  | .outOfFuel c => c

/-- The fuelled `while True` loop of `optimize_model` (lines 89-104):
break when `current_features <= min_features` (lines 92-94, checked
before any ranking call), otherwise execute one `loopStep` and continue;
a ranking failure aborts the run. -/
def loopRun {M : Type} (C : Collab M) (step remove minF : ℕ) :
    ℕ → LoopState → LoopOut
  | 0, st => .outOfFuel st.rankCalls
  | fuel + 1, st =>
    if st.currentFeatures ≤ minF then .done st
    else
      match loopStep C step remove st with
      | .error _ => .rankFail (st.rankCalls ++
          [(st.data.features.length,
            requestedFeatures st.data.features.length remove)])
      | .ok st2 => loopRun C step remove minF fuel st2

/-- ASCII whitespace, as stripped by Python `str.strip()`. -/
def isSpaceChar (c : Char) : Bool :=
  c == ' ' || c == '\t' || c == '\n' || c == '\r'

/-- Python `str.strip()` on the character sequence of the answer. -/
def stripChars (l : List Char) : List Char :=
  ((l.dropWhile isSpaceChar).reverse.dropWhile isSpaceChar).reverse

/-- The interactive confirmation of the persistence stage (lines
121-122): `input(...).strip().lower() in ('yes', 'y')`. -/
def saveConfirmed (answer : String) : Bool :=
  let s := (stripChars answer.data).map Char.toLower
  s == "yes".data || s == "y".data

/-- File-system effects of the persistence stage, in program order. -/
inductive FsEvent (M : Type) where
  | mkdir (path : String)
  | writeModel (path : String) (model : M)
  | writeCsv (path : String) (table : Dataset)
deriving DecidableEq

/-- Final status of a fuelled run of `optimize_model`. -/
inductive RunStatus where
  | notFound
  | rankingError
  | outOfFuel
  | finished (records : List Record) (best : Record)
deriving DecidableEq

/-- Result of a fuelled run: final status, the ranking-call trace, and
the ordered file-system events performed. -/
structure RunResult (M : Type) where
  status : RunStatus
  rankCalls : List (ℕ × ℕ)
  events : List (FsEvent M)
deriving DecidableEq

/-- The loop state right after the baseline fit (lines 77-87): the loaded
dataset, `current_features = initial_features`, `iteration = 1`, and
`models_metrics = [("initial_model", initial_metrics, data)]`. -/
def initState {M : Type} (C : Collab M) (data : Dataset) : LoopState :=
  ⟨data, data.features.length, 1,
   [⟨"initial_model", (train_model C data).2, data⟩], []⟩

/-- The persistence stage (lines 113-127): create `save_dir` when it is
absent, refit a fresh `LinearRegression` on every row of the winning
dataset (line 119, no hold-out split), dump the model when the user
confirms (lines 121-124), then always write the winning dataset as CSV
(line 126).  In the source the model dump precedes the CSV write. -/
def runEvents {M : Type} (C : Collab M) (saveDir : String)
    (dirExists : Bool) (answer : String) (best : Record) :
    List (FsEvent M) :=
  (if dirExists then [] else [.mkdir saveDir]) ++
    (if saveConfirmed answer then
      [.writeModel (saveDir ++ "/best_model_" ++ best.name ++ ".joblib")
        (C.fitLR best.data)]
    else []) ++
    [.writeCsv (saveDir ++ "/best_features_" ++ best.name ++ ".csv")
      best.data]

/-- Python `max(xs, key=k)` left fold (line 106): keep the current
maximum, replacing it only when the new key is strictly greater, so the
first occurrence wins on exact ties. -/
def foldlMax {α : Type} (key : α → ℚ) : α → List α → α
  | a, [] => a
  | a, x :: xs => foldlMax key (if key a < key x then x else a) xs

/-- Python `max(xs, key=k)` on a possibly empty list; `max` on an empty
list raises in Python, modelled as `none` (unreachable in this program
because `models_metrics` always holds the baseline entry). -/
def pyMax {α : Type} (key : α → ℚ) : List α → Option α
  | [] => none
  | x :: xs => some (foldlMax key x xs)

/-- `optimize_model` (lines 72-127): abort when the input path does not
exist (lines 73-75, before any side effect), run the baseline fit and the
fuelled loop, select the best record by R² with Python `max` (line 106),
and perform the persistence stage.  A ranking failure inside the loop
propagates and aborts the run before any write. -/
def optimize_model {M : Type} (C : Collab M) (fuel : ℕ)
    (fileExists : Bool) (data : Dataset) (step remove minF : ℕ)
    (saveDir : String) (dirExists : Bool) (answer : String) :
    RunResult M :=
  match fileExists with
  | false => ⟨.notFound, [], []⟩
  | true =>
    match loopRun C step remove minF fuel (initState C data) with
    | .outOfFuel calls => ⟨.outOfFuel, calls, []⟩
    | .rankFail calls => ⟨.rankingError, calls, []⟩
    | .done st =>
      match pyMax (fun r => r.metrics.r2) st.records with
      | none => ⟨.outOfFuel, st.rankCalls, []⟩
      | some best =>
        ⟨.finished st.records best, st.rankCalls,
         runEvents C saveDir dirExists answer best⟩

/-- The temporal ordering asserted by the specification for the
persistence stage: every model write is preceded by an earlier
feature-subset CSV write. -/
def modelNeverBeforeCsv {M : Type} (evs : List (FsEvent M)) : Prop :=
  ∀ i p m, evs.get? i = some (.writeModel p m) →
    ∃ j q t, j < i ∧ evs.get? j = some (.writeCsv q t)

/-- Per-record invariant relative to the loaded dataset: the metrics came
from `train_model` on the record's own dataset, its feature columns are
an order-preserving subset of the loaded feature columns, its target
values are the loaded target values, and every non-baseline record
carries the literal `target` column name. -/
def RecordOk {M : Type} (C : Collab M) (d0 : Dataset) (rec : Record) :
    Prop :=
  rec.metrics = (train_model C rec.data).2 ∧
  rec.data.features.Sublist d0.features ∧
  rec.data.target = d0.target ∧
  (rec.name = "initial_model" ∨ rec.data.targetName = "target")

/-- A support mask with `min n len` leading `true` entries: the shape of
an RFE support mask that keeps the first `n` columns.  Used to
instantiate runs on concrete data. -/
def takeMask : ℕ → ℕ → List Bool
  | _, 0 => []
  | 0, len + 1 => false :: takeMask 0 len
  | k + 1, len + 1 => true :: takeMask k len

/-- A concrete deterministic ranker keeping the first `n` requested
feature columns; it satisfies the RFE contract of returning a support
mask over the current columns with exactly the requested count (clamped
by the number of columns). -/
def takeRanker : Dataset → ℕ → ℕ → Except Unit (List Bool) :=
  fun d _ n => .ok (takeMask n d.features.length)

/-- A ranker that always fails, modelling `rfe.fit` raising on degenerate
data. -/
def failRanker : Dataset → ℕ → ℕ → Except Unit (List Bool) :=
  fun _ _ _ => .error ()

/-- Concrete collaborators with a trivial model type and all-zero
metrics. -/
def unitCollab : Collab Unit :=
  ⟨fun d => (d, d), fun _ => (), fun _ _ => ⟨0, 0, 0, 0⟩, takeRanker⟩

/-- Concrete collaborators whose R² grows as columns are removed, so a
ranking iteration beats the baseline. -/
def scoreCollab : Collab Unit :=
  ⟨fun d => (d, d), fun _ => (),
   fun _ d => ⟨if d.features.length ≤ 1 then 9 else 8, 0, 0, 0⟩,
   takeRanker⟩

/-- Concrete collaborators whose ranking step always fails. -/
def failCollab : Collab Unit :=
  ⟨fun d => (d, d), fun _ => (), fun _ _ => ⟨0, 0, 0, 0⟩, failRanker⟩

/-- Sample dataset: two feature columns `a`, `b` and a target column
named `y`. -/
def twoColData : Dataset :=
  ⟨[("a", [1, 2, 3]), ("b", [2, 4, 6])], "y", [3, 6, 9]⟩

/-- Sample dataset: one feature column `a` and a target column named
`y`. -/
def oneColData : Dataset := ⟨[("a", [1, 2, 3])], "y", [3, 6, 9]⟩

/-- The dataset produced from `twoColData` by one ranking pass that keeps
column `a`. -/
def iterOneData : Dataset := ⟨[("a", [1, 2, 3])], "target", [3, 6, 9]⟩

/-- All-zero metrics, as produced by `unitCollab`. -/
def zeroMetrics : Metrics := ⟨0, 0, 0, 0⟩

/-- Baseline record of a `unitCollab` run on `twoColData`. -/
def recInit : Record := ⟨"initial_model", zeroMetrics, twoColData⟩

/-- First-iteration record of a `unitCollab` run on `twoColData`. -/
def recIter1 : Record := ⟨"model_iteration_1", zeroMetrics, iterOneData⟩

/-- Baseline record of a `scoreCollab` run on `twoColData`. -/
def recInitScore : Record := ⟨"initial_model", ⟨8, 0, 0, 0⟩, twoColData⟩

/-- First-iteration record of a `scoreCollab` run on `twoColData`. -/
def recIter1Score : Record :=
  ⟨"model_iteration_1", ⟨9, 0, 0, 0⟩, iterOneData⟩

theorem applyMask_sublist {α : Type} (xs : List α) (bs : List Bool) :
    (applyMask xs bs).Sublist xs := by
  induction xs generalizing bs with
  | nil => cases bs <;> simp [applyMask]
  | cons x xs ih =>
    cases bs with
    | nil => simp [applyMask]
    | cons b bs =>
      by_cases hb : b = true
      · subst hb
        simpa [applyMask] using (ih bs).cons₂ x
      · rw [Bool.not_eq_true] at hb
        subst hb
        simpa [applyMask] using (ih bs).cons x

theorem requestedFeatures_eq_max (c r : ℕ) :
    requestedFeatures c r = max 1 (c - r) := by
  unfold requestedFeatures
  split <;> omega

theorem requestedFeatures_pos (c r : ℕ) : 1 ≤ requestedFeatures c r := by
  rw [requestedFeatures_eq_max]
  omega

theorem takeMask_length (k len : ℕ) : (takeMask k len).length = len := by
  induction len generalizing k with
  | zero => cases k <;> simp [takeMask]
  | succ n ih => cases k with
    | zero => simp [takeMask, ih 0]
    | succ m => simp [takeMask, ih m]

theorem applyMask_takeMask_length {α : Type} (xs : List α) (n : ℕ) :
    (applyMask xs (takeMask n xs.length)).length = min n xs.length := by
  induction xs generalizing n with
  | nil => cases n <;> simp [takeMask, applyMask]
  | cons x xs ih =>
    cases n with
    | zero =>
      have h1 : applyMask (x :: xs) (takeMask 0 (x :: xs).length)
          = applyMask xs (takeMask 0 xs.length) := by
        show applyMask (x :: xs) (false :: takeMask 0 xs.length) = _
        simp [applyMask]
      rw [h1, ih 0]
      simp
    | succ k =>
      have h1 : applyMask (x :: xs) (takeMask (k + 1) (x :: xs).length)
          = x :: applyMask xs (takeMask k xs.length) := by
        show applyMask (x :: xs) (true :: takeMask k xs.length) = _
        simp [applyMask]
      rw [h1]
      simp only [List.length_cons, ih k]
      omega

theorem feature_selection_ok {M : Type} (C : Collab M) (data : Dataset)
    (step remove : ℕ) (nd : Dataset) (sel : List String) (k : ℕ)
    (h : feature_selection C data step remove = .ok (nd, sel, k)) :
    nd.features.Sublist data.features ∧ nd.targetName = "target" ∧
      nd.target = data.target ∧ sel = nd.features.map Prod.fst := by
  unfold feature_selection at h
  rcases hr : C.rank data step
      (requestedFeatures data.features.length remove) with e | mask
  · rw [hr] at h
    exact absurd h (by simp)
  · rw [hr] at h
    simp only [Except.ok.injEq, Prod.mk.injEq] at h
    obtain ⟨h1, h2, h3⟩ := h
    subst h1
    subst h2
    exact ⟨applyMask_sublist data.features mask, rfl, rfl, rfl⟩

theorem foldlMax_key_le {α : Type} (key : α → ℚ) (a : α) (xs : List α) :
    key a ≤ key (foldlMax key a xs) := by
  induction xs generalizing a with
  | nil => simp [foldlMax]
  | cons x xs ih =>
    rw [foldlMax]
    rcases lt_or_le (key a) (key x) with h | h
    · rw [if_pos h]
      exact le_of_lt (lt_of_lt_of_le h (ih x))
    · rw [if_neg (not_lt.mpr h)]
      exact ih a

theorem foldlMax_decomp {α : Type} (key : α → ℚ) (a : α) (xs : List α) :
    ∃ l1 l2, a :: xs = l1 ++ foldlMax key a xs :: l2 ∧
      (∀ c ∈ l1, key c < key (foldlMax key a xs)) ∧
      (∀ c ∈ l2, key c ≤ key (foldlMax key a xs)) := by
  induction xs generalizing a with
  | nil => exact ⟨[], [], rfl, by simp, by simp⟩
  | cons x xs ih =>
    rcases lt_or_le (key a) (key x) with h | h
    · have hb : foldlMax key a (x :: xs) = foldlMax key x xs := by
        rw [foldlMax, if_pos h]
      rw [hb]
      obtain ⟨l1, l2, heq, hlt, hle⟩ := ih x
      refine ⟨a :: l1, l2, by rw [List.cons_append, ← heq], ?_, hle⟩
      intro c hc
      rcases List.mem_cons.mp hc with rfl | hc2
      · exact lt_of_lt_of_le h (foldlMax_key_le key x xs)
      · exact hlt c hc2
    · have hb : foldlMax key a (x :: xs) = foldlMax key a xs := by
        rw [foldlMax, if_neg (not_lt.mpr h)]
      rw [hb]
      obtain ⟨l1, l2, heq, hlt, hle⟩ := ih a
      cases l1 with
      | nil =>
        simp only [List.nil_append] at heq
        have ha : a = foldlMax key a xs := by
          exact (List.cons.injEq _ _ _ _ ▸ heq).1
        have hxs : xs = l2 := by
          exact (List.cons.injEq _ _ _ _ ▸ heq).2
        refine ⟨[], x :: l2, ?_, by simp, ?_⟩
        · simp [← ha, ← hxs]
        · intro c hc
          rcases List.mem_cons.mp hc with rfl | hc2
          · exact le_trans h (le_of_eq (congrArg key ha))
          · exact hle c hc2
      | cons a0 t =>
        simp only [List.cons_append] at heq
        have ha : a = a0 := (List.cons.injEq _ _ _ _ ▸ heq).1
        have hxs : xs = t ++ foldlMax key a xs :: l2 :=
          (List.cons.injEq _ _ _ _ ▸ heq).2
        have hab : key a < key (foldlMax key a xs) := by
          have h0 := hlt a0 (List.mem_cons_self a0 t)
          rwa [← ha] at h0
        refine ⟨a :: x :: t, l2, ?_, ?_, hle⟩
        · conv_lhs => rw [hxs]
          simp
        · intro c hc
          rcases List.mem_cons.mp hc with rfl | hc2
          · exact hab
          · rcases List.mem_cons.mp hc2 with rfl | hc3
            · exact lt_of_le_of_lt h hab
            · exact hlt c (List.mem_cons_of_mem a0 hc3)

theorem pyMax_eq_some_decomp {α : Type} (key : α → ℚ) (l : List α)
    (b : α) (h : pyMax key l = some b) :
    ∃ l1 l2, l = l1 ++ b :: l2 ∧
      (∀ c ∈ l1, key c < key b) ∧ (∀ c ∈ l2, key c ≤ key b) := by
  cases l with
  | nil => exact absurd h (by simp [pyMax])
  | cons x xs =>
    simp only [pyMax, Option.some.injEq] at h
    subst h
    exact foldlMax_decomp key x xs

theorem pyMax_mem {α : Type} (key : α → ℚ) (l : List α) (b : α)
    (h : pyMax key l = some b) : b ∈ l := by
  obtain ⟨l1, l2, heq, -, -⟩ := pyMax_eq_some_decomp key l b h
  rw [heq]
  simp

theorem loopStep_ok {M : Type} (C : Collab M) (step remove : ℕ)
    (st st3 : LoopState) (h : loopStep C step remove st = .ok st3) :
    ∃ nd selNames k,
      feature_selection C st.data step remove = .ok (nd, selNames, k) ∧
      st3 = ⟨nd, selNames.length, st.iteration + 1,
             st.records ++ [⟨"model_iteration_" ++ toString st.iteration,
               (train_model C nd).2, nd⟩],
             st.rankCalls ++ [(st.data.features.length,
               requestedFeatures st.data.features.length remove)]⟩ := by
  unfold loopStep at h
  rcases hfs : feature_selection C st.data step remove
      with e | ⟨nd, selNames, k⟩
  · rw [hfs] at h
    exact absurd h (by simp)
  · rw [hfs] at h
    simp only [Except.ok.injEq] at h
    exact ⟨nd, selNames, k, rfl, h.symm⟩

theorem loopRun_done_records {M : Type} (C : Collab M)
    (step remove minF : ℕ) (d0 : Dataset) :
    ∀ (fuel : ℕ) (st st2 : LoopState),
      loopRun C step remove minF fuel st = LoopOut.done st2 →
      st.data.features.Sublist d0.features →
      st.data.target = d0.target →
      (∀ r ∈ st.records, RecordOk C d0 r) →
      ∀ r ∈ st2.records, RecordOk C d0 r := by
  intro fuel
  induction fuel with
  | zero =>
    intro st st2 h
    exact absurd h (by simp [loopRun])
  | succ n ih =>
    intro st st2 h hsub htar hrec
    simp only [loopRun] at h
    by_cases hstop : st.currentFeatures ≤ minF
    · rw [if_pos hstop] at h
      injection h with h2
      subst h2
      exact hrec
    · rw [if_neg hstop] at h
      rcases hstep : loopStep C step remove st with e | st3
      · simp only [hstep] at h
        exact absurd h (by simp)
      · simp only [hstep] at h
        obtain ⟨nd, selNames, k, hfs, hst3⟩ :=
          loopStep_ok C step remove st st3 hstep
        obtain ⟨hnds, hndn, hndt, -⟩ :=
          feature_selection_ok C st.data step remove nd selNames k hfs
        subst hst3
        refine ih _ st2 h (hnds.trans hsub) (hndt.trans htar) ?_
        intro r hr
        rcases List.mem_append.mp hr with h1 | h1
        · exact hrec r h1
        · have h2 : r = ⟨"model_iteration_" ++ toString st.iteration,
              (train_model C nd).2, nd⟩ := List.mem_singleton.mp h1
          subst h2
          exact ⟨rfl, hnds.trans hsub, hndt.trans htar, Or.inr hndn⟩

theorem loopRun_calls_spec {M : Type} (C : Collab M)
    (step remove minF : ℕ) :
    ∀ (fuel : ℕ) (st : LoopState) (p : ℕ × ℕ),
      p ∈ (loopRun C step remove minF fuel st).calls →
      p ∈ st.rankCalls ∨ p.2 = requestedFeatures p.1 remove := by
  intro fuel
  induction fuel with
  | zero =>
    intro st p hp
    simp only [loopRun, LoopOut.calls] at hp
    exact Or.inl hp
  | succ n ih =>
    intro st p hp
    simp only [loopRun] at hp
    by_cases hstop : st.currentFeatures ≤ minF
    · rw [if_pos hstop] at hp
      simp only [LoopOut.calls] at hp
      exact Or.inl hp
    · rw [if_neg hstop] at hp
      rcases hstep : loopStep C step remove st with e | st3
      · simp only [hstep, LoopOut.calls] at hp
        rcases List.mem_append.mp hp with h1 | h1
        · exact Or.inl h1
        · right
          have h2 := List.mem_singleton.mp h1
          subst h2
          rfl
      · simp only [hstep] at hp
        rcases ih st3 p hp with h1 | h1
        · obtain ⟨nd, selNames, k, -, hst3⟩ :=
            loopStep_ok C step remove st st3 hstep
          subst hst3
          simp only at h1
          rcases List.mem_append.mp h1 with h2 | h2
          · exact Or.inl h2
          · right
            have h3 := List.mem_singleton.mp h2
            subst h3
            rfl
        · exact Or.inr h1

theorem optimize_model_finished_inv {M : Type} (C : Collab M) (fuel : ℕ)
    (fe : Bool) (data : Dataset) (step remove minF : ℕ) (saveDir : String)
    (de : Bool) (answer : String) (recs : List Record) (best : Record)
    (h : (optimize_model C fuel fe data step remove minF saveDir de
        answer).status = RunStatus.finished recs best) :
    pyMax (fun r => r.metrics.r2) recs = some best ∧
    (∃ st, loopRun C step remove minF fuel (initState C data)
        = LoopOut.done st ∧ st.records = recs) ∧
    (optimize_model C fuel fe data step remove minF saveDir de
        answer).events = runEvents C saveDir de answer best := by
  cases fe
  · exact absurd h (by simp [optimize_model])
  · rcases hl : loopRun C step remove minF fuel (initState C data)
        with st | calls | calls
    · rcases hp : pyMax (fun r => r.metrics.r2) st.records with _ | b
      · exact absurd h (by simp [optimize_model, hl, hp])
      · have h2 := h
        simp only [optimize_model, hl, hp] at h2
        injection h2 with hr hb
        subst hr
        subst hb
        exact ⟨hp, ⟨st, rfl, rfl⟩, by simp [optimize_model, hl, hp]⟩
    · exact absurd h (by simp [optimize_model, hl])
    · exact absurd h (by simp [optimize_model, hl])

theorem optimize_model_calls_inv {M : Type} (C : Collab M) (fuel : ℕ)
    (fe : Bool) (data : Dataset) (step remove minF : ℕ) (saveDir : String)
    (de : Bool) (answer : String) :
    (optimize_model C fuel fe data step remove minF saveDir de
        answer).rankCalls = [] ∨
    (optimize_model C fuel fe data step remove minF saveDir de
        answer).rankCalls
      = (loopRun C step remove minF fuel (initState C data)).calls := by
  cases fe
  · exact Or.inl rfl
  · rcases hl : loopRun C step remove minF fuel (initState C data)
        with st | calls | calls
    · rcases hp : pyMax (fun r => r.metrics.r2) st.records with _ | b
      · exact Or.inr (by simp [optimize_model, hl, hp, LoopOut.calls])
      · exact Or.inr (by simp [optimize_model, hl, hp, LoopOut.calls])
    · exact Or.inr (by simp [optimize_model, hl, LoopOut.calls])
    · exact Or.inr (by simp [optimize_model, hl, LoopOut.calls])

theorem requestedFeatures_one (r : ℕ) : requestedFeatures 1 r = 1 := by
  rw [requestedFeatures_eq_max]
  omega

theorem loopStep_take {M : Type} (C : Collab M) (hr : C.rank = takeRanker)
    (step remove : ℕ) (st : LoopState)
    (h2 : st.data.features.length = st.currentFeatures) :
    ∃ st3, loopStep C step remove st = .ok st3 ∧
      st3.currentFeatures
        = min (requestedFeatures st.currentFeatures remove)
            st.currentFeatures ∧
      st3.data.features.length = st3.currentFeatures ∧
      st3.rankCalls = st.rankCalls ++
        [(st.currentFeatures,
          requestedFeatures st.currentFeatures remove)] := by
  have hfs : feature_selection C st.data step remove = .ok
      (⟨applyMask st.data.features
          (takeMask (requestedFeatures st.data.features.length remove)
            st.data.features.length), "target", st.data.target⟩,
       (applyMask st.data.features
          (takeMask (requestedFeatures st.data.features.length remove)
            st.data.features.length)).map Prod.fst,
       requestedFeatures st.data.features.length remove) := by
    unfold feature_selection
    rw [hr]
    rfl
  rcases hstep : loopStep C step remove st with e | st3
  · unfold loopStep at hstep
    rw [hfs] at hstep
    exact absurd hstep (by simp)
  · obtain ⟨nd, selNames, k, hfs2, hst3⟩ :=
      loopStep_ok C step remove st st3 hstep
    rw [hfs] at hfs2
    simp only [Except.ok.injEq, Prod.mk.injEq] at hfs2
    obtain ⟨hnd, hsel, -⟩ := hfs2
    refine ⟨st3, rfl, ?_, ?_, ?_⟩
    · rw [hst3]
      dsimp only
      rw [← hsel, List.length_map, applyMask_takeMask_length, h2]
    · rw [hst3]
      dsimp only
      rw [← hnd, ← hsel, List.length_map]
    · rw [hst3]
      dsimp only
      rw [h2]

theorem loopRun_take_one_diverges {M : Type} (C : Collab M)
    (hr : C.rank = takeRanker) (step remove : ℕ) :
    ∀ (fuel : ℕ) (st : LoopState), st.currentFeatures = 1 →
      st.data.features.length = 1 →
      loopRun C step remove 0 fuel st
        = LoopOut.outOfFuel (st.rankCalls ++ List.replicate fuel (1, 1)) := by
  intro fuel
  induction fuel with
  | zero =>
    intro st h1 h2
    simp [loopRun]
  | succ n ih =>
    intro st h1 h2
    obtain ⟨st3, hstep, hc, hl, hcalls⟩ :=
      loopStep_take C hr step remove st (h2.trans h1.symm)
    rw [h1, requestedFeatures_one] at hc hcalls
    simp only [min_self] at hc
    have hlen : st3.data.features.length = 1 := by rw [hl, hc]
    have hrec := ih st3 hc hlen
    simp only [loopRun]
    rw [if_neg (by omega : ¬ st.currentFeatures ≤ 0)]
    simp only [hstep]
    rw [hrec, hcalls]
    simp [List.replicate_succ, List.append_assoc]

theorem loopRun_take_min0_diverges {M : Type} (C : Collab M)
    (hr : C.rank = takeRanker) (step remove : ℕ) :
    ∀ (fuel : ℕ) (st : LoopState), 1 ≤ st.currentFeatures →
      st.data.features.length = st.currentFeatures →
      ∃ calls, loopRun C step remove 0 fuel st
        = LoopOut.outOfFuel calls := by
  intro fuel
  induction fuel with
  | zero =>
    intro st h1 h2
    exact ⟨st.rankCalls, by simp [loopRun]⟩
  | succ n ih =>
    intro st h1 h2
    obtain ⟨st3, hstep, hc, hl, -⟩ := loopStep_take C hr step remove st h2
    have h3 : 1 ≤ st3.currentFeatures := by
      have := requestedFeatures_pos st.currentFeatures remove
      omega
    obtain ⟨calls, hcalls⟩ := ih st3 h3 hl
    refine ⟨calls, ?_⟩
    simp only [loopRun]
    rw [if_neg (by omega : ¬ st.currentFeatures ≤ 0)]
    simp only [hstep]
    exact hcalls

theorem initState_records_ok {M : Type} (C : Collab M) (data : Dataset) :
    ∀ r ∈ (initState C data).records, RecordOk C data r := by
  intro r hr
  have h2 : r = ⟨"initial_model", (train_model C data).2, data⟩ := by
    simpa [initState] using hr
  subst h2
  exact ⟨rfl, List.Sublist.refl _, rfl, Or.inl rfl⟩

/-- C1: for every run of `optimize_model` that returns a winner, the
winning candidate is one of the recorded iterations (baseline included),
its R² is greater than or equal to the R² of every other recorded
iteration, and on an exact R² tie the earlier-indexed record wins: the
record list splits around the winner with strictly smaller R² before it
and R² at most equal after it, exactly the outcome of a left-to-right
maximum scan. -/
theorem beaconC1_best_is_stable_max {M : Type} (C : Collab M) (fuel : ℕ)
    (fe : Bool) (data : Dataset) (step remove minF : ℕ) (saveDir : String)
    (de : Bool) (answer : String) (recs : List Record) (best : Record)
    (h : (optimize_model C fuel fe data step remove minF saveDir de
        answer).status = RunStatus.finished recs best) :
    ∃ l1 l2, recs = l1 ++ best :: l2 ∧
      (∀ r ∈ l1, r.metrics.r2 < best.metrics.r2) ∧
      (∀ r ∈ l2, r.metrics.r2 ≤ best.metrics.r2) := by
  obtain ⟨hp, -, -⟩ := optimize_model_finished_inv C fuel fe data step
    remove minF saveDir de answer recs best h
  exact pyMax_eq_some_decomp _ recs best hp

/-- Witness for C1: a concrete two-feature run whose two records tie at
R² = 0, so the baseline (the earlier record) wins. -/
theorem beaconC1_best_is_stable_max_check :
    ∃ l1 l2, [recInit, recIter1] = l1 ++ recInit :: l2 ∧
      (∀ r ∈ l1, r.metrics.r2 < recInit.metrics.r2) ∧
      (∀ r ∈ l2, r.metrics.r2 ≤ recInit.metrics.r2) :=
  beaconC1_best_is_stable_max unitCollab 5 true twoColData 1 1 1 "out"
    true "no" [recInit, recIter1] recInit (by decide)

/-- C2: the claim asserts that the loop always terminates within
ceil((initialFeatureCount - minFeatures) / removeCountPerIteration)
ranking iterations for every non-negative `min_features`.  The code
denies it: with `min_features = 0` the clamp keeps at least one selected
feature, `current_features <= 0` never holds, and the loop never
terminates — here on a two-feature dataset with `remove_count = 1`, every
fuel bound is exhausted although the claimed bound is 2. -/
theorem beaconC2_min_features_zero_diverges (fuel : ℕ) :
    (optimize_model unitCollab fuel true twoColData 1 1 0 "out" true
      "no").status = RunStatus.outOfFuel := by
  obtain ⟨calls, hc⟩ := loopRun_take_min0_diverges unitCollab rfl 1 1 fuel
    (initState unitCollab twoColData) (by decide) (by decide)
  simp [optimize_model, hc]

/-- C3: the claim asserts that on a dataset with exactly one feature
column and `min_features = 0` the loop executes zero ranking passes and
returns the baseline.  The code denies it: the stop check `1 <= 0` fails,
so the loop issues one ranking call per pass (the trace holds one
`(1, 1)` entry per consumed fuel unit) and never terminates, for every
`remove_count`. -/
theorem beaconC3_one_feature_min_zero_diverges (remove fuel : ℕ) :
    optimize_model unitCollab fuel true oneColData 1 remove 0 "out" true
      "no" = ⟨RunStatus.outOfFuel, List.replicate fuel (1, 1), []⟩ := by
  have h := loopRun_take_one_diverges unitCollab rfl 1 remove fuel
    (initState unitCollab oneColData) (by decide) (by decide)
  have h2 : (initState unitCollab oneColData).rankCalls
      ++ List.replicate fuel (1, 1) = List.replicate fuel (1, 1) := by
    simp [initState]
  rw [h2] at h
  simp [optimize_model, h]

/-- C4: for a fixed collaborator bundle (fixed split seed) and equal
inputs, two runs of the embedded pipeline are equal — in particular the
recorded feature subsets of every iteration and all recorded metrics
coincide.  This holds by construction: every collaborator is a
deterministic function of its inputs. -/
theorem beaconC4_deterministic {M : Type} (C : Collab M)
    (fuel1 fuel2 : ℕ) (fe1 fe2 : Bool) (data1 data2 : Dataset)
    (step1 step2 remove1 remove2 minF1 minF2 : ℕ)
    (sd1 sd2 : String) (de1 de2 : Bool) (a1 a2 : String)
    (hfuel : fuel1 = fuel2) (hfe : fe1 = fe2) (hdata : data1 = data2)
    (hstep : step1 = step2) (hremove : remove1 = remove2)
    (hminF : minF1 = minF2) (hsd : sd1 = sd2) (hde : de1 = de2)
    (ha : a1 = a2) :
    optimize_model C fuel1 fe1 data1 step1 remove1 minF1 sd1 de1 a1
      = optimize_model C fuel2 fe2 data2 step2 remove2 minF2 sd2 de2
          a2 := by
  subst hfuel hfe hdata hstep hremove hminF hsd hde ha
  rfl

/-- Witness for C4 at a concrete run. -/
theorem beaconC4_deterministic_check :
    optimize_model unitCollab 5 true twoColData 1 1 1 "out" true "no"
      = optimize_model unitCollab 5 true twoColData 1 1 1 "out" true
          "no" :=
  beaconC4_deterministic unitCollab 5 5 true true twoColData twoColData
    1 1 1 1 1 1 "out" "out" true true "no" "no" rfl rfl rfl rfl rfl rfl
    rfl rfl rfl

/-- C5: every ranking call issued during any run requests exactly
max(1, currentFeatureCount - removeCountPerIteration) features, and the
request is never below 1 however large the removal count is. -/
theorem beaconC5_request_clamped {M : Type} (C : Collab M) (fuel : ℕ)
    (fe : Bool) (data : Dataset) (step remove minF : ℕ) (saveDir : String)
    (de : Bool) (answer : String) (c n : ℕ)
    (h : (c, n) ∈ (optimize_model C fuel fe data step remove minF saveDir
        de answer).rankCalls) :
    n = max 1 (c - remove) ∧ 1 ≤ n := by
  rcases optimize_model_calls_inv C fuel fe data step remove minF saveDir
      de answer with h0 | h0
  · rw [h0] at h
    exact absurd h (List.not_mem_nil _)
  · rw [h0] at h
    rcases loopRun_calls_spec C step remove minF fuel (initState C data)
        (c, n) h with h1 | h1
    · simp [initState] at h1
    · have h2 : n = requestedFeatures c remove := h1
      constructor
      · rw [h2, requestedFeatures_eq_max]
      · rw [h2]
        exact requestedFeatures_pos c remove

/-- Witness for C5: the single ranking call of a concrete run requests
max(1, 2 - 1) = 1 feature. -/
theorem beaconC5_request_clamped_check : 1 = max 1 (2 - 1) ∧ 1 ≤ 1 :=
  beaconC5_request_clamped unitCollab 5 true twoColData 1 1 1 "out" true
    "no" 2 1 (by decide)

/-- C6 counterexample: the claim says the written feature-subset CSV
always contains a column literally named `target`; when the baseline wins
(here `min_features` exceeds the feature count, so zero passes run), the
written table is the original dataset, whose target column keeps its
original name `y`, and no column named `target` exists in it. -/
theorem beaconC6_counterexample :
    (optimize_model unitCollab 5 true twoColData 1 1 5 "out" true
      "no").events
      = [FsEvent.writeCsv "out/best_features_initial_model.csv"
          twoColData] ∧
    twoColData.targetName ≠ "target" ∧
    "target" ∉ twoColData.features.map Prod.fst :=
  ⟨by decide, by decide, by decide⟩

/-- C6 (amended): for every run that returns a winner, the feature-subset
CSV event carries exactly the winning record's dataset at the derived
path: its feature columns are an order-preserving subset of the loaded
feature columns, its target values are the loaded target values, and its
target column is literally named `target` whenever the winner is a
ranking iteration (when the baseline wins the column keeps the original
target-column name). -/
theorem beaconC6_amended_csv_contents {M : Type} (C : Collab M)
    (fuel : ℕ) (fe : Bool) (data : Dataset) (step remove minF : ℕ)
    (saveDir : String) (de : Bool) (answer : String) (recs : List Record)
    (best : Record)
    (h : (optimize_model C fuel fe data step remove minF saveDir de
        answer).status = RunStatus.finished recs best) :
    FsEvent.writeCsv (saveDir ++ "/best_features_" ++ best.name ++ ".csv")
        best.data ∈ (optimize_model C fuel fe data step remove minF
          saveDir de answer).events ∧
    best.data.features.Sublist data.features ∧
    best.data.target = data.target ∧
    (best.name ≠ "initial_model" → best.data.targetName = "target") := by
  obtain ⟨hp, ⟨st, hl, hrecs⟩, hev⟩ := optimize_model_finished_inv C fuel
    fe data step remove minF saveDir de answer recs best h
  subst hrecs
  have hmem := pyMax_mem _ _ best hp
  have hok : RecordOk C data best :=
    loopRun_done_records C step remove minF data fuel (initState C data)
      st hl (by simp [initState])
      (by simp [initState]) (initState_records_ok C data) best hmem
  refine ⟨?_, hok.2.1, hok.2.2.1, ?_⟩
  · rw [hev]
    simp [runEvents]
  · intro hne
    rcases hok.2.2.2 with h1 | h1
    · exact absurd h1 hne
    · exact h1

/-- Witness for C6 (amended): a concrete run where the first ranking
iteration wins, so the written table carries the literal `target` column
name. -/
theorem beaconC6_amended_csv_contents_check :
    FsEvent.writeCsv ("out" ++ "/best_features_" ++ recIter1Score.name
        ++ ".csv") recIter1Score.data
      ∈ (optimize_model scoreCollab 5 true twoColData 1 1 1 "out" true
          "yes").events ∧
    recIter1Score.data.features.Sublist twoColData.features ∧
    recIter1Score.data.target = twoColData.target ∧
    (recIter1Score.name ≠ "initial_model" →
      recIter1Score.data.targetName = "target") :=
  beaconC6_amended_csv_contents scoreCollab 5 true twoColData 1 1 1 "out"
    true "yes" [recInitScore, recIter1Score] recIter1Score (by decide)

/-- C7: in every run that reaches the persistence stage, a feature-subset
CSV write always occurs, while a model write occurs if and only if the
confirmation answer normalizes to yes/y; with a negative answer no model
event appears and the CSV write still occurs. -/
theorem beaconC7_csv_always_model_iff_confirmed {M : Type} (C : Collab M)
    (fuel : ℕ) (fe : Bool) (data : Dataset) (step remove minF : ℕ)
    (saveDir : String) (de : Bool) (answer : String) (recs : List Record)
    (best : Record)
    (h : (optimize_model C fuel fe data step remove minF saveDir de
        answer).status = RunStatus.finished recs best) :
    (∃ p t, FsEvent.writeCsv p t ∈ (optimize_model C fuel fe data step
        remove minF saveDir de answer).events) ∧
    ((∃ p m, FsEvent.writeModel p m ∈ (optimize_model C fuel fe data step
        remove minF saveDir de answer).events)
      ↔ saveConfirmed answer = true) := by
  obtain ⟨-, -, hev⟩ := optimize_model_finished_inv C fuel fe data step
    remove minF saveDir de answer recs best h
  rw [hev]
  constructor
  · exact ⟨saveDir ++ "/best_features_" ++ best.name ++ ".csv", best.data,
      by simp [runEvents]⟩
  · constructor
    · rintro ⟨p, m, hm⟩
      cases hc : saveConfirmed answer
      · exfalso
        cases de <;> simp [runEvents, hc] at hm
      · rfl
    · intro hc
      exact ⟨saveDir ++ "/best_model_" ++ best.name ++ ".joblib",
        C.fitLR best.data, by simp [runEvents, hc]⟩

/-- Witness for C7: a concrete declined-save run has a CSV event and no
model event. -/
theorem beaconC7_csv_always_model_iff_confirmed_check :
    (∃ p t, FsEvent.writeCsv p t ∈ (optimize_model unitCollab 5 true
        twoColData 1 1 1 "out" true "no").events) ∧
    ((∃ p m, FsEvent.writeModel p m ∈ (optimize_model unitCollab 5 true
        twoColData 1 1 1 "out" true "no").events)
      ↔ saveConfirmed "no" = true) :=
  beaconC7_csv_always_model_iff_confirmed unitCollab 5 true twoColData
    1 1 1 "out" true "no" [recInit, recIter1] recInit (by decide)

/-- C8 counterexample: the claim says the feature-subset CSV is written
before the model artifact, so a state where the model file exists without
the CSV never occurs.  In a concrete confirmed-save run the first event
is the model write and the CSV write only follows, refuting the claimed
ordering. -/
theorem beaconC8_counterexample :
    ¬ modelNeverBeforeCsv
      (optimize_model unitCollab 5 true twoColData 1 1 5 "out" true
        "yes").events := by
  intro hmn
  obtain ⟨j, q, t, hj, -⟩ := hmn 0 "out/best_model_initial_model.joblib"
    () (by decide)
  exact Nat.not_lt_zero j hj

/-- C8 (amended): in every run that persists both files, the model
artifact is serialized immediately before the feature-subset CSV, which
is the final write: the model file exists while the feature-subset file
has not yet been written, the reverse of the claimed order. -/
theorem beaconC8_amended_model_written_first {M : Type} (C : Collab M)
    (fuel : ℕ) (fe : Bool) (data : Dataset) (step remove minF : ℕ)
    (saveDir : String) (de : Bool) (answer : String) (recs : List Record)
    (best : Record)
    (h : (optimize_model C fuel fe data step remove minF saveDir de
        answer).status = RunStatus.finished recs best)
    (hc : saveConfirmed answer = true) :
    ∃ pre, (optimize_model C fuel fe data step remove minF saveDir de
        answer).events = pre ++
      [FsEvent.writeModel
        (saveDir ++ "/best_model_" ++ best.name ++ ".joblib")
        (C.fitLR best.data),
       FsEvent.writeCsv
        (saveDir ++ "/best_features_" ++ best.name ++ ".csv")
        best.data] := by
  obtain ⟨-, -, hev⟩ := optimize_model_finished_inv C fuel fe data step
    remove minF saveDir de answer recs best h
  refine ⟨if de then [] else [FsEvent.mkdir saveDir], ?_⟩
  rw [hev]
  simp [runEvents, hc]

/-- Witness for C8 (amended) at a concrete confirmed-save run. -/
theorem beaconC8_amended_model_written_first_check :
    ∃ pre, (optimize_model scoreCollab 5 true twoColData 1 1 1 "out" true
        "yes").events = pre ++
      [FsEvent.writeModel
        ("out" ++ "/best_model_" ++ recIter1Score.name ++ ".joblib")
        (scoreCollab.fitLR recIter1Score.data),
       FsEvent.writeCsv
        ("out" ++ "/best_features_" ++ recIter1Score.name ++ ".csv")
        recIter1Score.data] :=
  beaconC8_amended_model_written_first scoreCollab 5 true twoColData
    1 1 1 "out" true "yes" [recInitScore, recIter1Score] recIter1Score
    (by decide) (by decide)

/-- C9: when the input dataset path does not exist the run aborts with no
side effects at all (no directory creation, no write, no ranking call),
and when a ranking pass fails the run aborts with an empty event trace,
because all persistence happens only after the loop completes. -/
theorem beaconC9_abort_without_writes {M : Type} (C : Collab M) (fuel : ℕ)
    (fe : Bool) (data : Dataset) (step remove minF : ℕ) (saveDir : String)
    (de : Bool) (answer : String) :
    (fe = false →
      optimize_model C fuel fe data step remove minF saveDir de answer
        = ⟨RunStatus.notFound, [], []⟩) ∧
    ((optimize_model C fuel fe data step remove minF saveDir de
        answer).status = RunStatus.rankingError →
      (optimize_model C fuel fe data step remove minF saveDir de
        answer).events = []) := by
  constructor
  · intro h
    subst h
    rfl
  · intro h
    cases fe
    · rfl
    · rcases hl : loopRun C step remove minF fuel (initState C data)
          with st | calls | calls
      · rcases hp : pyMax (fun r => r.metrics.r2) st.records with _ | b
        · simp [optimize_model, hl, hp]
        · exact absurd h (by simp [optimize_model, hl, hp])
      · simp [optimize_model, hl]
      · simp [optimize_model, hl]

/-- Witness for C9: a missing-file run returns the bare not-found result,
and a failing-ranker run has an empty event trace. -/
theorem beaconC9_abort_without_writes_check :
    optimize_model unitCollab 5 false twoColData 1 1 1 "out" true "no"
      = ⟨RunStatus.notFound, [], []⟩ ∧
    (optimize_model failCollab 5 true twoColData 1 1 0 "out" true
      "no").events = [] :=
  ⟨(beaconC9_abort_without_writes unitCollab 5 false twoColData 1 1 1
      "out" true "no").1 rfl,
   (beaconC9_abort_without_writes failCollab 5 true twoColData 1 1 0
      "out" true "no").2 (by decide)⟩

/-- C10: in every confirmed-save run the persisted artifact is a fresh
fit on all rows of the winning dataset (no hold-out split), while the
winner's recorded metrics evaluate the model fitted on the 80/20 training
part only — so the reported metrics describe the split-trained model, not
the saved artifact, whose training data differs whenever the split is
proper. -/
theorem beaconC10_saved_model_full_fit {M : Type} (C : Collab M)
    (fuel : ℕ) (fe : Bool) (data : Dataset) (step remove minF : ℕ)
    (saveDir : String) (de : Bool) (answer : String) (recs : List Record)
    (best : Record)
    (h : (optimize_model C fuel fe data step remove minF saveDir de
        answer).status = RunStatus.finished recs best)
    (hc : saveConfirmed answer = true) :
    FsEvent.writeModel
        (saveDir ++ "/best_model_" ++ best.name ++ ".joblib")
        (C.fitLR best.data)
      ∈ (optimize_model C fuel fe data step remove minF saveDir de
          answer).events ∧
    best.metrics = C.evalModel (C.fitLR (C.split best.data).1)
      (C.split best.data).2 := by
  obtain ⟨hp, ⟨st, hl, hrecs⟩, hev⟩ := optimize_model_finished_inv C fuel
    fe data step remove minF saveDir de answer recs best h
  subst hrecs
  have hmem := pyMax_mem _ _ best hp
  have hok : RecordOk C data best :=
    loopRun_done_records C step remove minF data fuel (initState C data)
      st hl (by simp [initState])
      (by simp [initState]) (initState_records_ok C data) best hmem
  constructor
  · rw [hev]
    simp [runEvents, hc]
  · exact hok.1

/-- Witness for C10 at a concrete confirmed-save run with an iteration
winner. -/
theorem beaconC10_saved_model_full_fit_check :
    FsEvent.writeModel
        ("out" ++ "/best_model_" ++ recIter1Score.name ++ ".joblib")
        (scoreCollab.fitLR recIter1Score.data)
      ∈ (optimize_model scoreCollab 5 true twoColData 1 1 1 "out" true
          "yes").events ∧
    recIter1Score.metrics = scoreCollab.evalModel
      (scoreCollab.fitLR (scoreCollab.split recIter1Score.data).1)
      (scoreCollab.split recIter1Score.data).2 :=
  beaconC10_saved_model_full_fit scoreCollab 5 true twoColData 1 1 1
    "out" true "yes" [recInitScore, recIter1Score] recIter1Score
    (by decide) (by decide)

end Beacon
